import Mathlib

/- Verification of the check resolution and application engine in
   pkg/validator/schema.go of the polaris repository.

   Embedding conventions:
   * Go maps become association lists (`List (String × _)`); a Go map read
     `v, ok := m[k]` becomes `lookupS`, and a read with the zero-value
     default becomes `lookupD`.
   * Go multi-returns `(T, error)` become `Option T × Option String`
     (a `nil` pointer/map result is `none`, a non-nil error is `some msg`).
   * The opaque collaborator capabilities that live in pkg/config and are
     outside the verified source (Configuration.IsActionable,
     SchemaCheck.IsActionable, and the four per-shape predicate
     evaluators CheckPod / CheckController / CheckContainer / CheckObject)
     are modelled as function-valued fields, so every theorem quantifies
     over their behaviour.
   * The per-shape predicate evaluators return `Except String Bool`,
     matching Go's `(bool, error)` with the error checked first.  -/

namespace Polaris

/-- Severity is a string-valued enumeration in pkg/config (e.g. "danger"). -/
abbrev Severity := String

/-- TargetKind is a string-valued type in pkg/config. -/
abbrev TargetKind := String

/-- The pkg/config constant TargetPod. -/
def TargetPod : TargetKind := "Pod"

/-- The pkg/config constant TargetController. -/
def TargetController : TargetKind := "Controller"

/-- The pkg/config constant TargetContainer. -/
def TargetContainer : TargetKind := "Container"

/-- Modelled from the spec: the pkg/config constant TargetOther is declared
outside the verified source; its concrete string value is never inspected
by the engine (it only flows into the opaque actionability capabilities),
so any value distinct from the three above is faithful. -/
def TargetOther : TargetKind := "Other"

/-- A container specification: its name (read by the engine when resolving
container-scope checks) plus the remaining fields, opaque to the engine. -/
structure Container where
  Name : String
  Rest : String
  deriving DecidableEq

/-- A pod specification: the two container lists (rewritten by the engine
when it builds the synthetic single-container pod) plus the remaining
fields, opaque to the engine. -/
structure PodSpec where
  InitContainers : List Container
  Containers : List Container
  Rest : String
  deriving DecidableEq

/-- Object metadata: namespace, name and the annotation map. -/
structure ObjectMeta where
  nsp : String
  name : String
  annots : List (String × String)
  deriving DecidableEq

/-- kube.GenericWorkload: kind, metadata, pod spec and the serialized
original controller object (opaque bytes to the engine). -/
structure GenericWorkload where
  Kind : String
  ObjectMeta : ObjectMeta
  PodSpec : PodSpec
  OriginalObjectJSON : String
  deriving DecidableEq

/-- unstructured.Unstructured: kind, accessible metadata and the untyped
content (opaque to the engine). -/
structure Unstructured where
  Kind : String
  Meta : ObjectMeta
  Content : String
  deriving DecidableEq

/-- Association-list lookup: the Go map read `v, ok := m[k]`. -/
def lookupS {α : Type} : List (String × α) → String → Option α
  | [], _ => none
  | (k, v) :: rest, key => if k = key then some v else lookupS rest key

/-- Go map read that yields the zero value when the key is absent. -/
def lookupD {α : Type} (m : List (String × α)) (key : String) (d : α) : α :=
  (lookupS m key).getD d

/-- config.SchemaCheck: identity, metadata, declared schema target, the
structural actionability test and the four predicate evaluation forms.
IsActionable and the Check* evaluators live in pkg/config, outside the
verified source, so they are opaque function fields here. -/
structure SchemaCheck where
  ID : String
  Category : String
  SuccessMessage : String
  FailureMessage : String
  SchemaTarget : TargetKind
  IsActionable : TargetKind → String → Bool → Bool
  CheckPod : PodSpec → Except String Bool
  CheckController : String → Except String Bool
  CheckContainer : Container → Except String Bool
  CheckObject : Unstructured → Except String Bool

/-- config.Configuration: the check-ID-to-severity map, the custom check
map, the global disallow-exemptions flag, and the global actionability
test (checkID, namespace, name, containerName), opaque here because it
lives in pkg/config outside the verified source. -/
structure Configuration where
  Checks : List (String × Severity)
  CustomChecks : List (String × SchemaCheck)
  DisallowExemptions : Bool
  IsActionable : String → String → String → String → Bool

/-- validator.ResultMessage. -/
structure ResultMessage where
  ID : String
  Severity : Severity
  Category : String
  Success : Bool
  Message : String
  deriving DecidableEq

/-- validator.ResultSet, a Go map keyed by check ID; modelled as an
association list that records insertion order. -/
abbrev ResultSet := List (String × ResultMessage)

/-- Go map assignment `rs[k] = v`: replace the existing entry in place or
append a new one. -/
def setRS (rs : ResultSet) (k : String) (v : ResultMessage) : ResultSet :=
  match rs with
  | [] => [(k, v)]
  | (k', v') :: rest => if k' = k then (k, v) :: rest else (k', v') :: setRS rest k v

/-- The blanket exemption annotation key. -/
def exemptionAnnotKey : String := "polaris.fairwinds.com/exempt"

/-- The per-check exemption annotation key, the Sprintf of the pattern
"polaris.fairwinds.com/%s-exempt" applied to the check ID. -/
def exemptionKeyFor (checkID : String) : String :=
  "polaris.fairwinds.com/" ++ checkID ++ "-exempt"

/-- strings.ToLower as used by the engine: lower-case every character
(the engine only ever compares the result against "true", so ASCII case
folding is the relevant behaviour). -/
def strToLower (s : String) : String := ⟨s.data.map Char.toLower⟩

/-- hasExemptionAnnotation from schema.go: the blanket key or the
per-check key carries the value "true" in any letter case. -/
def hasExemptionAnnot (ctrl : GenericWorkload) (checkID : String) : Bool :=
  let annot := ctrl.ObjectMeta.annots
  let val := lookupD annot exemptionAnnotKey ""
  if strToLower val = "true" then true
  else
    let val2 := lookupD annot (exemptionKeyFor checkID) ""
    if strToLower val2 = "true" then true else false

/-- The two-step catalog lookup inside resolveCheck: custom checks first,
then the built-in catalog. The built-in catalog is the package-level map
initialized at startup; it is passed explicitly here (dependency
injection of the read-only global). -/
def catalogLookup (builtins : List (String × SchemaCheck)) (conf : Configuration)
    (checkID : String) : Option SchemaCheck :=
  match lookupS conf.CustomChecks checkID with
  | some check => some check
  | none => lookupS builtins checkID

/-- resolveCheck from schema.go: catalog lookup (custom shadowing
built-in), then the global actionability test, then the structural
actionability test. Absence from both catalogs is an error; a failed
actionability test is a silent skip (no check, no error). -/
def resolveCheck (builtins : List (String × SchemaCheck)) (conf : Configuration)
    (checkID kind : String) (target : TargetKind) (meta : ObjectMeta)
    (containerName : String) (isInitContainer : Bool) :
    Option SchemaCheck × Option String :=
  match catalogLookup builtins conf checkID with
  | none => (none, some ("Check " ++ checkID ++ " not found"))
  | some check =>
    if !(conf.IsActionable check.ID meta.nsp meta.name containerName) then (none, none)
    else if !(check.IsActionable target kind isInitContainer) then (none, none)
    else (some check, none)

/-- makeResult from schema.go: severity is read from the configuration's
severity map (zero value when absent), the message is the success or
failure template of the check. -/
def makeResult (conf : Configuration) (check : SchemaCheck) (passes : Bool) : ResultMessage :=
  { ID := check.ID
    Severity := lookupD conf.Checks check.ID ""
    Category := check.Category
    Success := passes
    Message := if passes then check.SuccessMessage else check.FailureMessage }

/-- Lexicographic comparison of character lists by code point, the order
realized by sort.Strings (UTF-8 byte order and code-point order agree). -/
def charListLeb : List Char → List Char → Bool
  | [], _ => true
  | _ :: _, [] => false
  | a :: as, b :: bs =>
    if a.toNat < b.toNat then true
    else if b.toNat < a.toNat then false
    else charListLeb as bs

/-- Lexicographic string comparison, the order of sort.Strings. -/
def strLeb (a b : String) : Bool := charListLeb a.data b.data

/-- The lexicographic order on strings as a relation. -/
abbrev strLeRel : String → String → Prop := fun a b => strLeb a b = true

/-- getSortedKeys from schema.go: the keys of the severity map, sorted
lexicographically (sort.Strings). -/
def getSortedKeys (m : List (String × Severity)) : List String :=
  (m.map Prod.fst).insertionSort strLeRel

/-- The shared four-stage loop body of the apply*SchemaChecks functions:
exemption filter, resolution, evaluation, aggregation. Each entry point
below instantiates the exemption test, the resolver arguments and the
fragment evaluation exactly as its Go source does. A pass-level error
returns the Go `nil, err` pair; completion returns `results, nil`. -/
def runChecks (conf : Configuration) (exempt : String → Bool)
    (resolve : String → Option SchemaCheck × Option String)
    (evalCheck : SchemaCheck → Except String Bool) :
    List String → ResultSet → Option ResultSet × Option String
  | [], results => (some results, none)
  | checkID :: rest, results =>
    if exempt checkID then
      runChecks conf exempt resolve evalCheck rest results
    else
      match resolve checkID with
      | (_, some err) => (none, some err)
      | (none, none) => runChecks conf exempt resolve evalCheck rest results
      | (some check, none) =>
        match evalCheck check with
        | Except.error err => (none, some err)
        | Except.ok passes =>
            runChecks conf exempt resolve evalCheck rest
              (setRS results check.ID (makeResult conf check passes))

/-- applyPodSchemaChecks from schema.go. -/
def applyPodSchemaChecks (builtins : List (String × SchemaCheck))
    (conf : Configuration) (controller : GenericWorkload) :
    Option ResultSet × Option String :=
  runChecks conf
    (fun checkID => !conf.DisallowExemptions && hasExemptionAnnot controller checkID)
    (fun checkID =>
      resolveCheck builtins conf checkID controller.Kind TargetPod controller.ObjectMeta "" false)
    (fun check => check.CheckPod controller.PodSpec)
    (getSortedKeys conf.Checks) []

/-- applyControllerSchemaChecks from schema.go. -/
def applyControllerSchemaChecks (builtins : List (String × SchemaCheck))
    (conf : Configuration) (controller : GenericWorkload) :
    Option ResultSet × Option String :=
  runChecks conf
    (fun checkID => !conf.DisallowExemptions && hasExemptionAnnot controller checkID)
    (fun checkID =>
      resolveCheck builtins conf checkID controller.Kind TargetController controller.ObjectMeta
        "" false)
    (fun check => check.CheckController controller.OriginalObjectJSON)
    (getSortedKeys conf.Checks) []

/-- The container-scope fragment evaluation from applyContainerSchemaChecks:
a pod-shaped check is evaluated against a synthetic pod whose container
list is exactly the one target container and whose init-container list is
cleared; any other check is evaluated against the container itself. -/
def containerCheckEval (controller : GenericWorkload) (container : Container)
    (check : SchemaCheck) : Except String Bool :=
  if check.SchemaTarget = TargetPod then
    check.CheckPod
      { controller.PodSpec with InitContainers := [], Containers := [container] }
  else
    check.CheckContainer container

/-- applyContainerSchemaChecks from schema.go. -/
def applyContainerSchemaChecks (builtins : List (String × SchemaCheck))
    (conf : Configuration) (controller : GenericWorkload) (container : Container)
    (isInit : Bool) : Option ResultSet × Option String :=
  runChecks conf
    (fun checkID => !conf.DisallowExemptions && hasExemptionAnnot controller checkID)
    (fun checkID =>
      resolveCheck builtins conf checkID controller.Kind TargetContainer controller.ObjectMeta
        container.Name isInit)
    (containerCheckEval controller container)
    (getSortedKeys conf.Checks) []

/-- applyOtherSchemaChecks from schema.go. Note: this entry point performs
no exemption-annotation test at all, and passes the empty string as the
target kind. The metadata accessor is total in this embedding (the
reflection failure of meta.Accessor is a Go-runtime condition with no
counterpart here). -/
def applyOtherSchemaChecks (builtins : List (String × SchemaCheck))
    (conf : Configuration) (unst : Unstructured) :
    Option ResultSet × Option String :=
  runChecks conf
    (fun _ => false)
    (fun checkID => resolveCheck builtins conf checkID unst.Kind "" unst.Meta "" false)
    (fun check => check.CheckObject unst)
    (getSortedKeys conf.Checks) []

/-- applyArbitrarySchemaChecks from schema.go: like the other-object entry
point but resolving against TargetOther, and likewise without any
exemption-annotation test. -/
def applyArbitrarySchemaChecks (builtins : List (String × SchemaCheck))
    (conf : Configuration) (unst : Unstructured) :
    Option ResultSet × Option String :=
  runChecks conf
    (fun _ => false)
    (fun checkID => resolveCheck builtins conf checkID unst.Kind TargetOther unst.Meta "" false)
    (fun check => check.CheckObject unst)
    (getSortedKeys conf.Checks) []

/-- Modelled from the spec: consumers of a ResultSet live outside the
verified source; per the Result Aggregator contract they iterate the set
in lexicographic order of check ID (sort the keys, then read each
record). -/
def consumeResultSet (rs : ResultSet) : ResultSet :=
  ((rs.map Prod.fst).insertionSort strLeRel).filterMap
    (fun k => (lookupS rs k).map (fun v => (k, v)))

/-- The fixed declaration order of the built-in catalog from schema.go. -/
def checkOrder : List String :=
  [ "multipleReplicasForDeployment",
    "hostIPCSet",
    "hostPIDSet",
    "hostNetworkSet",
    "memoryLimitsMissing",
    "memoryRequestsMissing",
    "cpuLimitsMissing",
    "cpuRequestsMissing",
    "readinessProbeMissing",
    "livenessProbeMissing",
    "pullPolicyNotAlways",
    "tagNotSpecified",
    "hostPortSet",
    "runAsRootAllowed",
    "runAsPrivileged",
    "notReadOnlyRootFilesystem",
    "privilegeEscalationAllowed",
    "dangerousCapabilities",
    "insecureCapabilities",
    "priorityClassNotSet",
    "tlsSettingsMissing",
    "pdbDisruptionsAllowedGreaterThanZero" ]

/-- The init function of schema.go: for each ID of checkOrder, parse the
packaged definition, force its ID field to the catalog key, and store it
under that key. The parsed YAML contents live outside the verified source,
so the parse result is a parameter. -/
def mkBuiltInChecks (parsed : String → SchemaCheck) : List (String × SchemaCheck) :=
  checkOrder.map (fun checkID => (checkID, { parsed checkID with ID := checkID }))

/-- Well-formedness of a catalog: every stored check carries its own key
as its ID field. The init function establishes this for the built-in
catalog; configuration parsing (outside the verified source) establishes
it for the custom catalog. -/
def ChecksWF (cs : List (String × SchemaCheck)) : Prop :=
  ∀ p ∈ cs, (p.2).ID = p.1

/-- Whether an annotation key is one of the exemption keys: the blanket
key, or an instance of the per-check pattern. -/
def isExemptionKey (key : String) : Bool :=
  key == exemptionAnnotKey ||
    (key.startsWith "polaris.fairwinds.com/" && key.endsWith "-exempt")

/-- Remove every exemption annotation from object metadata. -/
def stripExemptAnnots (m : ObjectMeta) : ObjectMeta :=
  { m with annots := m.annots.filter (fun p => !isExemptionKey p.1) }

/-- Remove every exemption annotation from a workload manifest. -/
def stripWorkload (w : GenericWorkload) : GenericWorkload :=
  { w with ObjectMeta := stripExemptAnnots w.ObjectMeta }

/-- Remove every exemption annotation from an unstructured manifest. -/
def stripUnstructured (u : Unstructured) : Unstructured :=
  { u with Meta := stripExemptAnnots u.Meta }

/-- A concrete check whose predicates always return the given verdict,
used to instantiate theorems at concrete inputs. -/
def okCheck (id : String) (passes : Bool) : SchemaCheck :=
  { ID := id
    Category := "Security"
    SuccessMessage := "good"
    FailureMessage := "bad"
    SchemaTarget := TargetContainer
    IsActionable := fun _ _ _ => true
    CheckPod := fun _ => Except.ok passes
    CheckController := fun _ => Except.ok passes
    CheckContainer := fun _ => Except.ok passes
    CheckObject := fun _ => Except.ok passes }

/-- A concrete check whose predicates always fail to evaluate, modelling a
malformed predicate. -/
def errCheck (id : String) : SchemaCheck :=
  { ID := id
    Category := "Security"
    SuccessMessage := "good"
    FailureMessage := "bad"
    SchemaTarget := TargetContainer
    IsActionable := fun _ _ _ => true
    CheckPod := fun _ => Except.error "malformed"
    CheckController := fun _ => Except.error "malformed"
    CheckContainer := fun _ => Except.error "malformed"
    CheckObject := fun _ => Except.error "malformed" }

/-- The result record produced by makeResult for a check built by okCheck
under the given severity, used to state witnesses. -/
def msgOf (id sev : String) (passes : Bool) : ResultMessage :=
  { ID := id
    Severity := sev
    Category := "Security"
    Success := passes
    Message := if passes then "good" else "bad" }

/-- A concrete check declared pod-shaped (SchemaTarget = Pod) whose pod
predicate passes exactly when the pod has no init containers. -/
def podShapedCheck (id : String) : SchemaCheck :=
  { ID := id
    Category := "Security"
    SuccessMessage := "good"
    FailureMessage := "bad"
    SchemaTarget := TargetPod
    IsActionable := fun _ _ _ => true
    CheckPod := fun pod => Except.ok pod.InitContainers.isEmpty
    CheckController := fun _ => Except.ok true
    CheckContainer := fun _ => Except.ok true
    CheckObject := fun _ => Except.ok true }

/-- A concrete container. -/
def sampleContainer : Container := { Name := "main", Rest := "image-spec" }

/-- A concrete pod specification. -/
def samplePod : PodSpec :=
  { InitContainers := [], Containers := [sampleContainer], Rest := "pod-rest" }

/-- Concrete object metadata with the given annotation map. -/
def sampleMeta (annots : List (String × String)) : ObjectMeta :=
  { nsp := "default", name := "app", annots := annots }

/-- A concrete workload manifest with the given annotation map. -/
def sampleWorkload (annots : List (String × String)) : GenericWorkload :=
  { Kind := "Deployment"
    ObjectMeta := sampleMeta annots
    PodSpec := samplePod
    OriginalObjectJSON := "serialized-controller" }

/-- A concrete unstructured manifest with the given annotation map. -/
def sampleUnstructured (annots : List (String × String)) : Unstructured :=
  { Kind := "Ingress", Meta := sampleMeta annots, Content := "ingress-content" }

/-- A concrete configuration with an everywhere-true global actionability
test. -/
def sampleConf (checks : List (String × Severity)) (customs : List (String × SchemaCheck))
    (dis : Bool) : Configuration :=
  { Checks := checks
    CustomChecks := customs
    DisallowExemptions := dis
    IsActionable := fun _ _ _ _ => true }

/-- A concrete configuration whose global actionability test rejects
every check. -/
def rejectingConf (checks : List (String × Severity))
    (customs : List (String × SchemaCheck)) : Configuration :=
  { Checks := checks
    CustomChecks := customs
    DisallowExemptions := false
    IsActionable := fun _ _ _ _ => false }

/- ------------------------------------------------------------------ -/
/- Helper lemmas about the association-list primitives.               -/
/- ------------------------------------------------------------------ -/

theorem lookupS_mem {α : Type} {l : List (String × α)} {k : String} {v : α}
    (h : lookupS l k = some v) : (k, v) ∈ l := by
  induction l with
  | nil => simp [lookupS] at h
  | cons p rest ih =>
    obtain ⟨k', v'⟩ := p
    simp only [lookupS] at h
    by_cases hk : k' = k
    · rw [if_pos hk] at h
      injection h with h1
      subst hk; subst h1
      exact List.mem_cons_self _ _
    · rw [if_neg hk] at h
      exact List.mem_cons_of_mem _ (ih h)

theorem lookupS_eq_none {α : Type} {l : List (String × α)} {k : String}
    (h : k ∉ l.map Prod.fst) : lookupS l k = none := by
  induction l with
  | nil => rfl
  | cons p rest ih =>
    obtain ⟨k', v'⟩ := p
    simp only [List.map, List.mem_cons] at h
    push_neg at h
    simp only [lookupS]
    rw [if_neg (fun hc => h.1 hc.symm)]
    exact ih h.2

theorem mem_of_lookupS_isSome {α : Type} {l : List (String × α)} {k : String}
    (h : lookupS l k ≠ none) : k ∈ l.map Prod.fst := by
  by_contra hc
  exact h (lookupS_eq_none hc)

theorem mem_setRS_map_fst {rs : ResultSet} {k : String} {v : ResultMessage} {x : String} :
    x ∈ (setRS rs k v).map Prod.fst ↔ x ∈ rs.map Prod.fst ∨ x = k := by
  induction rs with
  | nil => simp [setRS]
  | cons p rest ih =>
    obtain ⟨k', v'⟩ := p
    simp only [setRS]
    by_cases hk : k' = k
    · rw [if_pos hk]
      subst hk
      simp only [List.map, List.mem_cons]
      tauto
    · rw [if_neg hk]
      simp only [List.map, List.mem_cons]
      rw [ih]
      tauto

theorem setRS_map_fst_of_mem {rs : ResultSet} {k : String} (v : ResultMessage)
    (h : k ∈ rs.map Prod.fst) : (setRS rs k v).map Prod.fst = rs.map Prod.fst := by
  induction rs with
  | nil => simp at h
  | cons p rest ih =>
    obtain ⟨k', v'⟩ := p
    simp only [setRS]
    by_cases hk : k' = k
    · rw [if_pos hk]; subst hk; simp
    · rw [if_neg hk]
      simp only [List.map, List.mem_cons] at h
      rcases h with rfl | h
      · exact absurd rfl hk
      · simp [ih h]

theorem setRS_map_fst_of_notMem {rs : ResultSet} {k : String} (v : ResultMessage)
    (h : k ∉ rs.map Prod.fst) :
    (setRS rs k v).map Prod.fst = rs.map Prod.fst ++ [k] := by
  induction rs with
  | nil => simp [setRS]
  | cons p rest ih =>
    obtain ⟨k', v'⟩ := p
    simp only [List.map, List.mem_cons] at h
    push_neg at h
    simp only [setRS]
    rw [if_neg (fun hc => h.1 hc.symm)]
    simp [ih h.2]

theorem lookupS_setRS_ne {rs : ResultSet} {k k' : String} (v : ResultMessage)
    (h : k' ≠ k) : lookupS (setRS rs k v) k' = lookupS rs k' := by
  induction rs with
  | nil =>
    simp only [setRS, lookupS]
    rw [if_neg (fun hc => h hc.symm)]
  | cons p rest ih =>
    obtain ⟨k₀, v₀⟩ := p
    simp only [setRS]
    by_cases hk : k₀ = k
    · rw [if_pos hk]
      subst hk
      simp only [lookupS]
      rw [if_neg (fun hc => h hc.symm), if_neg (fun hc => h hc.symm)]
    · rw [if_neg hk]
      simp only [lookupS]
      by_cases hk' : k₀ = k'
      · rw [if_pos hk', if_pos hk']
      · rw [if_neg hk', if_neg hk']
        exact ih

/- ------------------------------------------------------------------ -/
/- Helper lemmas about the shared check-application loop.             -/
/- ------------------------------------------------------------------ -/

theorem runChecks_error_none (conf : Configuration) (ex : String → Bool)
    (res : String → Option SchemaCheck × Option String)
    (ev : SchemaCheck → Except String Bool) :
    ∀ (ids : List String) (rs : ResultSet) (o : Option ResultSet) (e : String),
      runChecks conf ex res ev ids rs = (o, some e) → o = none := by
  intro ids
  induction ids with
  | nil =>
    intro rs o e h
    simp only [runChecks] at h
    injection h with h1 h2
    exact Option.noConfusion h2
  | cons id rest ih =>
    intro rs o e h
    simp only [runChecks] at h
    by_cases hex : ex id = true
    · rw [hex] at h
      simp only [if_pos rfl] at h
      exact ih rs o e h
    · rw [Bool.not_eq_true] at hex
      rw [hex] at h
      simp only [Bool.false_eq_true, if_neg, if_false] at h
      rcases hres : res id with ⟨ro, rs'⟩
      rw [hres] at h
      cases rs' with
      | some err =>
        simp only at h
        injection h with h1 h2
        exact h1.symm
      | none =>
        cases ro with
        | none =>
          simp only at h
          exact ih rs o e h
        | some check =>
          simp only at h
          rcases hev : ev check with err | passes
          · rw [hev] at h
            injection h with h1 h2
            exact h1.symm
          · rw [hev] at h
            exact ih _ o e h

theorem runChecks_all_exempt (conf : Configuration) (ex : String → Bool)
    (res : String → Option SchemaCheck × Option String)
    (ev : SchemaCheck → Except String Bool) :
    ∀ (ids : List String) (rs : ResultSet), (∀ id ∈ ids, ex id = true) →
      runChecks conf ex res ev ids rs = (some rs, none) := by
  intro ids
  induction ids with
  | nil => intro rs _; rfl
  | cons id rest ih =>
    intro rs h
    simp only [runChecks]
    rw [h id (List.mem_cons_self _ _)]
    simp only [if_pos rfl]
    exact ih rs (fun i hi => h i (List.mem_cons_of_mem _ hi))

theorem runChecks_member_error (conf : Configuration) (ex : String → Bool)
    (res : String → Option SchemaCheck × Option String)
    (ev : SchemaCheck → Except String Bool) :
    ∀ (ids : List String) (rs : ResultSet) (mid : String),
      mid ∈ ids → ex mid = false → (res mid).2 ≠ none →
      ∃ e, runChecks conf ex res ev ids rs = (none, some e) := by
  intro ids
  induction ids with
  | nil => intro rs mid h; cases h
  | cons id rest ih =>
    intro rs mid hmem hex herr
    simp only [runChecks]
    by_cases hid : ex id = true
    · rw [hid]
      simp only [if_pos rfl]
      rcases List.mem_cons.mp hmem with rfl | hmem'
      · rw [hex] at hid; exact Bool.noConfusion hid
      · exact ih rs mid hmem' hex herr
    · rw [Bool.not_eq_true] at hid
      rw [hid]
      simp only [Bool.false_eq_true, if_false]
      rcases hres : res id with ⟨ro, rerr⟩
      cases rerr with
      | some err => exact ⟨err, by simp⟩
      | none =>
        cases ro with
        | none =>
          rcases List.mem_cons.mp hmem with rfl | hmem'
          · rw [hres] at herr; simp at herr
          · simpa using ih rs mid hmem' hex herr
        | some check =>
          rcases hev : ev check with err | passes
          · exact ⟨err, by simp [hev]⟩
          · rcases List.mem_cons.mp hmem with rfl | hmem'
            · rw [hres] at herr; simp at herr
            · simpa [hev] using ih _ mid hmem' hex herr

theorem runChecks_congr (conf : Configuration) {ex₁ ex₂ : String → Bool}
    {res₁ res₂ : String → Option SchemaCheck × Option String}
    {ev₁ ev₂ : SchemaCheck → Except String Bool}
    (hex : ∀ id, ex₁ id = ex₂ id) (hres : ∀ id, res₁ id = res₂ id)
    (hev : ∀ c, ev₁ c = ev₂ c) (ids : List String) (rs : ResultSet) :
    runChecks conf ex₁ res₁ ev₁ ids rs = runChecks conf ex₂ res₂ ev₂ ids rs := by
  rw [funext hex, funext hres, funext hev]

theorem runChecks_success_keys (conf : Configuration) (ex : String → Bool)
    (res : String → Option SchemaCheck × Option String)
    (ev : SchemaCheck → Except String Bool)
    (hres : ∀ id c s, res id = (some c, s) → c.ID = id) :
    ∀ (ids : List String) (rs out : ResultSet),
      runChecks conf ex res ev ids rs = (some out, none) →
      ∀ k ∈ out.map Prod.fst, k ∈ rs.map Prod.fst ∨ k ∈ ids := by
  intro ids
  induction ids with
  | nil =>
    intro rs out h k hk
    simp only [runChecks] at h
    injection h with h1 h2
    injection h1 with h1
    subst h1
    exact Or.inl hk
  | cons id rest ih =>
    intro rs out h k hk
    simp only [runChecks] at h
    by_cases hexid : ex id = true
    · rw [hexid] at h
      simp only [if_pos rfl] at h
      rcases ih rs out h k hk with h' | h'
      · exact Or.inl h'
      · exact Or.inr (List.mem_cons_of_mem _ h')
    · rw [Bool.not_eq_true] at hexid
      rw [hexid] at h
      simp only [Bool.false_eq_true, if_false] at h
      rcases hres' : res id with ⟨ro, rerr⟩
      rw [hres'] at h
      cases rerr with
      | some err => simp only at h; exact absurd h (by simp)
      | none =>
        cases ro with
        | none =>
          simp only at h
          rcases ih rs out h k hk with h' | h'
          · exact Or.inl h'
          · exact Or.inr (List.mem_cons_of_mem _ h')
        | some check =>
          simp only at h
          rcases hev : ev check with err | passes
          · rw [hev] at h; exact absurd h (by simp)
          · rw [hev] at h
            rcases ih _ out h k hk with h' | h'
            · rcases mem_setRS_map_fst.mp h' with h'' | rfl
              · exact Or.inl h''
              · rw [hres id check none hres']
                exact Or.inr (List.mem_cons_self _ _)
            · exact Or.inr (List.mem_cons_of_mem _ h')

theorem runChecks_no_entry (conf : Configuration) (ex : String → Bool)
    (res : String → Option SchemaCheck × Option String)
    (ev : SchemaCheck → Except String Bool) (mid : String)
    (hres : ∀ id c s, res id = (some c, s) → c.ID = id)
    (hskip : ex mid = true ∨ (res mid).1 = none) :
    ∀ (ids : List String) (rs out : ResultSet),
      lookupS rs mid = none →
      runChecks conf ex res ev ids rs = (some out, none) →
      lookupS out mid = none := by
  intro ids
  induction ids with
  | nil =>
    intro rs out hrs h
    simp only [runChecks] at h
    injection h with h1 h2
    injection h1 with h1
    subst h1
    exact hrs
  | cons id rest ih =>
    intro rs out hrs h
    simp only [runChecks] at h
    by_cases hexid : ex id = true
    · rw [hexid] at h
      simp only [if_pos rfl] at h
      exact ih rs out hrs h
    · rw [Bool.not_eq_true] at hexid
      rw [hexid] at h
      simp only [Bool.false_eq_true, if_false] at h
      rcases hres' : res id with ⟨ro, rerr⟩
      rw [hres'] at h
      cases rerr with
      | some err => exact absurd h (by simp)
      | none =>
        cases ro with
        | none =>
          simp only at h
          exact ih rs out hrs h
        | some check =>
          simp only at h
          rcases hev : ev check with err | passes
          · rw [hev] at h; exact absurd h (by simp)
          · rw [hev] at h
            have hid : check.ID = id := hres id check none hres'
            have hne : mid ≠ check.ID := by
              rw [hid]
              rintro rfl
              rcases hskip with hskip | hskip
              · rw [hexid] at hskip; exact Bool.noConfusion hskip
              · rw [hres'] at hskip; simp at hskip
            exact ih _ out (by rw [lookupS_setRS_ne _ hne]; exact hrs) h

theorem runChecks_sorted_keys (conf : Configuration) (ex : String → Bool)
    (res : String → Option SchemaCheck × Option String)
    (ev : SchemaCheck → Except String Bool)
    (hres : ∀ id c s, res id = (some c, s) → c.ID = id) :
    ∀ (ids : List String) (rs out : ResultSet),
      List.Pairwise strLeRel ids →
      List.Pairwise strLeRel (rs.map Prod.fst) →
      (rs.map Prod.fst).Nodup →
      (∀ k ∈ rs.map Prod.fst, ∀ i ∈ ids, strLeRel k i) →
      runChecks conf ex res ev ids rs = (some out, none) →
      List.Pairwise strLeRel (out.map Prod.fst) ∧
        (out.map Prod.fst).Nodup := by
  intro ids
  induction ids with
  | nil =>
    intro rs out _ hp hn _ h
    simp only [runChecks] at h
    injection h with h1 h2
    injection h1 with h1
    subst h1
    exact ⟨hp, hn⟩
  | cons id rest ih =>
    intro rs out hids hp hn hbound h
    have hids' := List.pairwise_cons.mp hids
    simp only [runChecks] at h
    by_cases hexid : ex id = true
    · rw [hexid] at h
      simp only [if_pos rfl] at h
      exact ih rs out hids'.2 hp hn
        (fun k hk i hi => hbound k hk i (List.mem_cons_of_mem _ hi)) h
    · rw [Bool.not_eq_true] at hexid
      rw [hexid] at h
      simp only [Bool.false_eq_true, if_false] at h
      rcases hres' : res id with ⟨ro, rerr⟩
      rw [hres'] at h
      cases rerr with
      | some err => exact absurd h (by simp)
      | none =>
        cases ro with
        | none =>
          simp only at h
          exact ih rs out hids'.2 hp hn
            (fun k hk i hi => hbound k hk i (List.mem_cons_of_mem _ hi)) h
        | some check =>
          simp only at h
          rcases hev : ev check with err | passes
          · rw [hev] at h; exact absurd h (by simp)
          · rw [hev] at h
            have hid : check.ID = id := hres id check none hres'
            rw [hid] at h
            by_cases hmem : id ∈ rs.map Prod.fst
            · refine ih _ out hids'.2 ?_ ?_ ?_ h
              · rw [setRS_map_fst_of_mem _ hmem]; exact hp
              · rw [setRS_map_fst_of_mem _ hmem]; exact hn
              · rw [setRS_map_fst_of_mem _ hmem]
                exact fun k hk i hi => hbound k hk i (List.mem_cons_of_mem _ hi)
            · refine ih _ out hids'.2 ?_ ?_ ?_ h
              · rw [setRS_map_fst_of_notMem _ hmem]
                refine List.pairwise_append.mpr ⟨hp, List.pairwise_singleton _ _, ?_⟩
                intro a ha b hb
                rw [List.mem_singleton] at hb
                rw [hb]
                exact hbound a ha id (List.mem_cons_self _ _)
              · rw [setRS_map_fst_of_notMem _ hmem]
                refine List.nodup_append.mpr ⟨hn, List.nodup_singleton _, ?_⟩
                intro a ha hb
                rw [List.mem_singleton] at hb
                subst hb
                exact hmem ha
              · rw [setRS_map_fst_of_notMem _ hmem]
                intro k hk i hi
                rcases List.mem_append.mp hk with hk' | hk'
                · exact hbound k hk' i (List.mem_cons_of_mem _ hi)
                · rw [List.mem_singleton] at hk'
                  subst hk'
                  exact hids'.1 i hi

/- ------------------------------------------------------------------ -/
/- Helper lemmas about consumption, resolution and exemptions.        -/
/- ------------------------------------------------------------------ -/

theorem filterMap_congr_mem {α β : Type} {f g : α → Option β} :
    ∀ {l : List α}, (∀ a ∈ l, f a = g a) → l.filterMap f = l.filterMap g := by
  intro l
  induction l with
  | nil => intro _; rfl
  | cons a rest ih =>
    intro h
    rw [List.filterMap_cons, List.filterMap_cons, h a (List.mem_cons_self _ _),
      ih (fun b hb => h b (List.mem_cons_of_mem _ hb))]

theorem filterMap_lookup_self :
    ∀ (rs : ResultSet), (rs.map Prod.fst).Nodup →
      (rs.map Prod.fst).filterMap (fun k => (lookupS rs k).map (fun v => (k, v))) = rs := by
  intro rs
  induction rs with
  | nil => intro _; rfl
  | cons p rest ih =>
    obtain ⟨k, v⟩ := p
    intro hn
    simp only [List.map] at hn ⊢
    have hn' := List.nodup_cons.mp hn
    rw [@List.filterMap_cons_some _ _ _ _ _ (k, v) (by simp [lookupS])]
    congr 1
    rw [filterMap_congr_mem (g := fun k' => (lookupS rest k').map (fun v' => (k', v')))]
    · exact ih hn'.2
    · intro a ha
      have hne : k ≠ a := fun hc => hn'.1 (hc ▸ ha)
      simp only [lookupS]
      rw [if_neg hne]

theorem charListLeb_cons_iff {a b : Char} {as bs : List Char} :
    charListLeb (a :: as) (b :: bs) = true ↔
      a.toNat < b.toNat ∨ (a.toNat = b.toNat ∧ charListLeb as bs = true) := by
  simp only [charListLeb]
  split_ifs with h1 h2
  · constructor
    · intro _; exact Or.inl h1
    · intro _; rfl
  · constructor
    · intro h; exact absurd h (by simp)
    · rintro (h | ⟨h, _⟩) <;> omega
  · constructor
    · intro h
      right
      exact ⟨by omega, h⟩
    · rintro (h | ⟨_, h⟩)
      · omega
      · exact h

theorem charListLeb_total : ∀ (x y : List Char),
    charListLeb x y = true ∨ charListLeb y x = true
  | [], _ => Or.inl rfl
  | _ :: _, [] => Or.inr rfl
  | a :: as, b :: bs => by
    rcases Nat.lt_trichotomy a.toNat b.toNat with h | h | h
    · exact Or.inl (charListLeb_cons_iff.mpr (Or.inl h))
    · rcases charListLeb_total as bs with h' | h'
      · exact Or.inl (charListLeb_cons_iff.mpr (Or.inr ⟨h, h'⟩))
      · exact Or.inr (charListLeb_cons_iff.mpr (Or.inr ⟨h.symm, h'⟩))
    · exact Or.inr (charListLeb_cons_iff.mpr (Or.inl h))

theorem charListLeb_trans : ∀ (x y z : List Char),
    charListLeb x y = true → charListLeb y z = true → charListLeb x z = true
  | [], _, _ => fun _ _ => rfl
  | _ :: _, [], _ => fun h _ => by simp [charListLeb] at h
  | _ :: _, _ :: _, [] => fun _ h => by simp [charListLeb] at h
  | a :: as, b :: bs, c :: cs => fun h1 h2 => by
    rcases charListLeb_cons_iff.mp h1 with hab | ⟨hab, h1'⟩ <;>
      rcases charListLeb_cons_iff.mp h2 with hbc | ⟨hbc, h2'⟩
    · exact charListLeb_cons_iff.mpr (Or.inl (by omega))
    · exact charListLeb_cons_iff.mpr (Or.inl (by omega))
    · exact charListLeb_cons_iff.mpr (Or.inl (by omega))
    · exact charListLeb_cons_iff.mpr
        (Or.inr ⟨by omega, charListLeb_trans as bs cs h1' h2'⟩)

theorem getSortedKeys_pairwise (m : List (String × Severity)) :
    List.Pairwise strLeRel (getSortedKeys m) := by
  haveI h2 : IsTrans String strLeRel :=
    ⟨fun a b c => charListLeb_trans a.data b.data c.data⟩
  haveI h1 : IsTotal String strLeRel :=
    ⟨fun a b => charListLeb_total a.data b.data⟩
  exact List.sorted_insertionSort strLeRel (m.map Prod.fst)

theorem mem_getSortedKeys {m : List (String × Severity)} {k : String} :
    k ∈ getSortedKeys m ↔ k ∈ m.map Prod.fst :=
  (List.perm_insertionSort strLeRel (m.map Prod.fst)).mem_iff

theorem consumeResultSet_eq_self {rs : ResultSet}
    (hp : List.Pairwise strLeRel (rs.map Prod.fst))
    (hn : (rs.map Prod.fst).Nodup) :
    consumeResultSet rs = rs := by
  unfold consumeResultSet
  rw [List.Sorted.insertionSort_eq hp]
  exact filterMap_lookup_self rs hn

theorem mkBuiltInChecks_wf (parsed : String → SchemaCheck) :
    ChecksWF (mkBuiltInChecks parsed) := by
  intro p hp
  simp only [mkBuiltInChecks, List.mem_map] at hp
  obtain ⟨id, _, rfl⟩ := hp
  rfl

theorem catalogLookup_wf {b : List (String × SchemaCheck)} {conf : Configuration}
    {id : String} {c : SchemaCheck}
    (hcust : ChecksWF conf.CustomChecks) (hb : ChecksWF b)
    (h : catalogLookup b conf id = some c) : c.ID = id := by
  unfold catalogLookup at h
  cases hc : lookupS conf.CustomChecks id with
  | some x =>
    rw [hc] at h
    injection h with h1
    subst h1
    exact hcust _ (lookupS_mem hc)
  | none =>
    rw [hc] at h
    exact hb _ (lookupS_mem h)

theorem resolveCheck_some_id {b : List (String × SchemaCheck)} {conf : Configuration}
    {id kind : String} {target : TargetKind} {m : ObjectMeta} {cn : String} {ii : Bool}
    {c : SchemaCheck} {s : Option String}
    (hcust : ChecksWF conf.CustomChecks) (hb : ChecksWF b)
    (h : resolveCheck b conf id kind target m cn ii = (some c, s)) : c.ID = id := by
  unfold resolveCheck at h
  cases hc : catalogLookup b conf id with
  | none => rw [hc] at h; exact absurd h (by simp)
  | some check =>
    rw [hc] at h
    cases h1 : conf.IsActionable check.ID m.nsp m.name cn with
    | false => simp [h1] at h
    | true =>
      cases h2 : check.IsActionable target kind ii with
      | false => simp [h1, h2] at h
      | true =>
        simp only [h1, h2, Bool.not_true, Bool.false_eq_true, if_false] at h
        injection h with h3 h4
        injection h3 with h3
        subst h3
        exact catalogLookup_wf hcust hb hc

theorem hasExemptionAnnot_blanket {w : GenericWorkload}
    (h : strToLower (lookupD w.ObjectMeta.annots exemptionAnnotKey "") = "true") :
    ∀ id, hasExemptionAnnot w id = true := by
  intro id
  simp [hasExemptionAnnot, h]

theorem hasExemptionAnnot_perCheck {w : GenericWorkload} {id : String}
    (h : strToLower (lookupD w.ObjectMeta.annots (exemptionKeyFor id) "") = "true") :
    hasExemptionAnnot w id = true := by
  simp [hasExemptionAnnot, h]

theorem resolveCheck_annots_irrelevant (bi : List (String × SchemaCheck))
    (conf : Configuration) (id kind : String) (target : TargetKind) (m : ObjectMeta)
    (cn : String) (ii : Bool) :
    resolveCheck bi conf id kind target (stripExemptAnnots m) cn ii
      = resolveCheck bi conf id kind target m cn ii := rfl

/- ------------------------------------------------------------------ -/
/- The claims.                                                        -/
/- ------------------------------------------------------------------ -/

/-- C1: for every configuration and check ID present both in the
configuration's custom checks and in the built-in catalog, resolveCheck
consults only the custom definition: it either returns the custom check
(when both actionability tests admit it) or skips, and it never returns
the built-in definition nor an error. -/
theorem resolveCheck_custom_shadows_builtin
    (bi : List (String × SchemaCheck)) (conf : Configuration)
    (checkID kind : String) (target : TargetKind) (m : ObjectMeta)
    (cn : String) (ii : Bool) (custom builtin : SchemaCheck)
    (hcust : lookupS conf.CustomChecks checkID = some custom)
    (hbuilt : lookupS bi checkID = some builtin) :
    resolveCheck bi conf checkID kind target m cn ii = (some custom, none) ∨
      resolveCheck bi conf checkID kind target m cn ii = (none, none) := by
  unfold resolveCheck catalogLookup
  rw [hcust]
  cases h1 : conf.IsActionable custom.ID m.nsp m.name cn with
  | false => right; simp [h1]
  | true =>
    cases h2 : custom.IsActionable target kind ii with
    | false => right; simp [h1, h2]
    | true => left; simp [h1, h2]

/-- Witness for C1 at a concrete input: the catalog key "dup" is present
in both catalogs and resolution yields the custom definition. -/
theorem resolveCheck_custom_shadows_builtin_witness :
    resolveCheck [("dup", okCheck "dup" true)]
        (sampleConf [("dup", "danger")] [("dup", okCheck "dup" false)] false)
        "dup" "Deployment" TargetPod (sampleMeta []) "" false
        = (some (okCheck "dup" false), none) ∨
      resolveCheck [("dup", okCheck "dup" true)]
        (sampleConf [("dup", "danger")] [("dup", okCheck "dup" false)] false)
        "dup" "Deployment" TargetPod (sampleMeta []) "" false
        = (none, none) :=
  resolveCheck_custom_shadows_builtin _ _ _ _ _ _ _ _ _ _ (by rfl) (by rfl)

/-- C2 (counterexample): the claim quantifies over every scope entry
point, including the other-object one, but applyOtherSchemaChecks never
consults exemption annotations: a concrete manifest carrying the blanket
exemption annotation "true", under a configuration that does not disallow
exemptions, still yields a non-empty ResultSet from the other-object
entry point. -/
theorem blanket_exemption_other_scope_cex :
    lookupD (sampleUnstructured [(exemptionAnnotKey, "true")]).Meta.annots
        exemptionAnnotKey "" = "true" ∧
    (sampleConf [("c1", "danger")] [("c1", okCheck "c1" false)] false).DisallowExemptions
        = false ∧
    applyOtherSchemaChecks []
        (sampleConf [("c1", "danger")] [("c1", okCheck "c1" false)] false)
        (sampleUnstructured [(exemptionAnnotKey, "true")])
      = (some [("c1", msgOf "c1" "danger" false)], none) ∧
    ([("c1", msgOf "c1" "danger" false)] : ResultSet) ≠ [] := by
  refine ⟨rfl, rfl, ?_, by simp⟩
  rfl

/-- C2 (amended): for every manifest whose annotations carry the blanket
exemption key with value "true" in any letter case, and every
configuration that does not disallow exemptions, the pod, controller and
container scope entry points return an empty ResultSet; the other-object
entry point does not consult exemption annotations at all. -/
theorem blanket_exemption_empty_resultset
    (bi : List (String × SchemaCheck)) (conf : Configuration) (w : GenericWorkload)
    (container : Container) (isInit : Bool)
    (hann : strToLower (lookupD w.ObjectMeta.annots exemptionAnnotKey "") = "true")
    (hdis : conf.DisallowExemptions = false) :
    applyPodSchemaChecks bi conf w = (some [], none) ∧
    applyControllerSchemaChecks bi conf w = (some [], none) ∧
    applyContainerSchemaChecks bi conf w container isInit = (some [], none) := by
  have hex : ∀ id, (!conf.DisallowExemptions && hasExemptionAnnot w id) = true := by
    intro id
    rw [hdis, hasExemptionAnnot_blanket hann id]
    rfl
  refine ⟨?_, ?_, ?_⟩
  · unfold applyPodSchemaChecks
    exact runChecks_all_exempt _ _ _ _ _ _ (fun id _ => hex id)
  · unfold applyControllerSchemaChecks
    exact runChecks_all_exempt _ _ _ _ _ _ (fun id _ => hex id)
  · unfold applyContainerSchemaChecks
    exact runChecks_all_exempt _ _ _ _ _ _ (fun id _ => hex id)

/-- Witness for the amended C2 at a concrete input, with the annotation
value in mixed letter case. -/
theorem blanket_exemption_empty_resultset_witness :
    applyPodSchemaChecks [] (sampleConf [("c1", "danger")] [("c1", okCheck "c1" true)] false)
        (sampleWorkload [(exemptionAnnotKey, "True")]) = (some [], none) ∧
    applyControllerSchemaChecks []
        (sampleConf [("c1", "danger")] [("c1", okCheck "c1" true)] false)
        (sampleWorkload [(exemptionAnnotKey, "True")]) = (some [], none) ∧
    applyContainerSchemaChecks []
        (sampleConf [("c1", "danger")] [("c1", okCheck "c1" true)] false)
        (sampleWorkload [(exemptionAnnotKey, "True")]) sampleContainer false
        = (some [], none) :=
  blanket_exemption_empty_resultset _ _ _ _ _ (by decide) (by rfl)

/-- C3: for every check X exempted by a per-check exemption annotation
with value "true" in any letter case, when exemptions are not globally
disallowed and both catalogs are well formed, a successful container-scope
pass returns a ResultSet with no entry for X. -/
theorem perCheck_exemption_no_entry
    (bi : List (String × SchemaCheck)) (conf : Configuration) (w : GenericWorkload)
    (container : Container) (isInit : Bool) (x : String) (rs : ResultSet)
    (hwfc : ChecksWF conf.CustomChecks) (hwfb : ChecksWF bi)
    (hann : strToLower (lookupD w.ObjectMeta.annots (exemptionKeyFor x) "") = "true")
    (hdis : conf.DisallowExemptions = false)
    (h : applyContainerSchemaChecks bi conf w container isInit = (some rs, none)) :
    lookupS rs x = none := by
  unfold applyContainerSchemaChecks at h
  refine runChecks_no_entry _ _ _ _ x ?_ ?_ (getSortedKeys conf.Checks) [] rs rfl h
  · intro id c s hcs
    exact resolveCheck_some_id hwfc hwfb hcs
  · left
    rw [hdis, hasExemptionAnnot_perCheck hann]
    rfl

/-- Witness for C3 at a concrete input: check "x" is exempted by its
per-check annotation and has no entry, while check "y" still produces
one. -/
theorem perCheck_exemption_no_entry_witness :
    lookupS [(("y" : String), msgOf "y" "warning" true)] "x" = none ∧
    lookupS [(("y" : String), msgOf "y" "warning" true)] "y"
      = some (msgOf "y" "warning" true) :=
  ⟨perCheck_exemption_no_entry []
      (sampleConf [("x", "danger"), ("y", "warning")]
        [("x", okCheck "x" true), ("y", okCheck "y" true)] false)
      (sampleWorkload [(exemptionKeyFor "x", "true")]) sampleContainer false "x" _
      (by intro p hp; fin_cases hp <;> rfl)
      (by intro p hp; simp at hp)
      (by rfl) (by rfl) (by rfl),
    by rfl⟩

/-- C4: for every configuration with the disallow-exemptions flag set,
exemption annotations are ignored entirely: the pod, controller and
container scope entry points produce the same result for a manifest as
for the same manifest with all exemption annotations removed. -/
theorem disallow_exemptions_ignores_annots
    (bi : List (String × SchemaCheck)) (conf : Configuration) (w : GenericWorkload)
    (container : Container) (isInit : Bool)
    (hdis : conf.DisallowExemptions = true) :
    applyPodSchemaChecks bi conf w = applyPodSchemaChecks bi conf (stripWorkload w) ∧
    applyControllerSchemaChecks bi conf w
      = applyControllerSchemaChecks bi conf (stripWorkload w) ∧
    applyContainerSchemaChecks bi conf w container isInit
      = applyContainerSchemaChecks bi conf (stripWorkload w) container isInit := by
  have hex : ∀ id, (!conf.DisallowExemptions && hasExemptionAnnot w id)
      = (!conf.DisallowExemptions && hasExemptionAnnot (stripWorkload w) id) := by
    intro id
    rw [hdis]
    rfl
  refine ⟨?_, ?_, ?_⟩
  · unfold applyPodSchemaChecks
    exact runChecks_congr _ hex
      (fun id => (resolveCheck_annots_irrelevant bi conf id w.Kind TargetPod
        w.ObjectMeta "" false).symm)
      (fun c => rfl) _ _
  · unfold applyControllerSchemaChecks
    exact runChecks_congr _ hex
      (fun id => (resolveCheck_annots_irrelevant bi conf id w.Kind TargetController
        w.ObjectMeta "" false).symm)
      (fun c => rfl) _ _
  · unfold applyContainerSchemaChecks
    exact runChecks_congr _ hex
      (fun id => (resolveCheck_annots_irrelevant bi conf id w.Kind TargetContainer
        w.ObjectMeta container.Name isInit).symm)
      (fun c => rfl) _ _

/-- Witness for C4 at a concrete input: with exemptions disallowed, a
manifest exempting its only configured check is validated exactly like
the stripped manifest. -/
theorem disallow_exemptions_ignores_annots_witness :
    applyPodSchemaChecks [] (sampleConf [("c1", "danger")] [("c1", okCheck "c1" false)] true)
        (sampleWorkload [(exemptionAnnotKey, "true")])
      = applyPodSchemaChecks []
          (sampleConf [("c1", "danger")] [("c1", okCheck "c1" false)] true)
          (stripWorkload (sampleWorkload [(exemptionAnnotKey, "true")])) ∧
    applyControllerSchemaChecks []
        (sampleConf [("c1", "danger")] [("c1", okCheck "c1" false)] true)
        (sampleWorkload [(exemptionAnnotKey, "true")])
      = applyControllerSchemaChecks []
          (sampleConf [("c1", "danger")] [("c1", okCheck "c1" false)] true)
          (stripWorkload (sampleWorkload [(exemptionAnnotKey, "true")])) ∧
    applyContainerSchemaChecks []
        (sampleConf [("c1", "danger")] [("c1", okCheck "c1" false)] true)
        (sampleWorkload [(exemptionAnnotKey, "true")]) sampleContainer false
      = applyContainerSchemaChecks []
          (sampleConf [("c1", "danger")] [("c1", okCheck "c1" false)] true)
          (stripWorkload (sampleWorkload [(exemptionAnnotKey, "true")])) sampleContainer false :=
  disallow_exemptions_ignores_annots _ _ _ _ _ (by rfl)

/-- C5: for every configuration referencing a check ID absent from both
the custom checks and the built-in catalog, when that check is not
exempted by the manifest, resolution yields the check-not-found error and
every scope entry point aborts its pass with an error and zero
ResultRecords (Go returns the nil map). -/
theorem missing_check_aborts_pass
    (bi : List (String × SchemaCheck)) (conf : Configuration) (w : GenericWorkload)
    (container : Container) (isInit : Bool) (u : Unstructured)
    (mid kind : String) (target : TargetKind) (m : ObjectMeta) (cn : String) (ii : Bool)
    (hk : mid ∈ conf.Checks.map Prod.fst)
    (hc : lookupS conf.CustomChecks mid = none)
    (hbnone : lookupS bi mid = none)
    (hex : hasExemptionAnnot w mid = false) :
    resolveCheck bi conf mid kind target m cn ii
      = (none, some ("Check " ++ mid ++ " not found")) ∧
    (∃ e, applyPodSchemaChecks bi conf w = (none, some e)) ∧
    (∃ e, applyControllerSchemaChecks bi conf w = (none, some e)) ∧
    (∃ e, applyContainerSchemaChecks bi conf w container isInit = (none, some e)) ∧
    (∃ e, applyOtherSchemaChecks bi conf u = (none, some e)) := by
  have hlook : catalogLookup bi conf mid = none := by
    unfold catalogLookup
    rw [hc, hbnone]
  have hresolve : ∀ (kind : String) (target : TargetKind) (m : ObjectMeta)
      (cn : String) (ii : Bool),
      resolveCheck bi conf mid kind target m cn ii
        = (none, some ("Check " ++ mid ++ " not found")) := by
    intro kind target m cn ii
    unfold resolveCheck
    rw [hlook]
  have hmem : mid ∈ getSortedKeys conf.Checks := mem_getSortedKeys.mpr hk
  have hexf : (!conf.DisallowExemptions && hasExemptionAnnot w mid) = false := by
    rw [hex, Bool.and_false]
  refine ⟨hresolve kind target m cn ii, ?_, ?_, ?_, ?_⟩
  · unfold applyPodSchemaChecks
    exact runChecks_member_error _ _ _ _ _ _ mid hmem hexf (by rw [hresolve]; simp)
  · unfold applyControllerSchemaChecks
    exact runChecks_member_error _ _ _ _ _ _ mid hmem hexf (by rw [hresolve]; simp)
  · unfold applyContainerSchemaChecks
    exact runChecks_member_error _ _ _ _ _ _ mid hmem hexf (by rw [hresolve]; simp)
  · unfold applyOtherSchemaChecks
    exact runChecks_member_error _ _ _ _ _ _ mid hmem rfl (by rw [hresolve]; simp)

/-- Witness for C5 at a concrete input: the configuration references
"zzz", which none of the twenty-two built-in checks provides and no custom
check does either. -/
theorem missing_check_aborts_pass_witness :
    resolveCheck (mkBuiltInChecks (fun id => okCheck id true))
        (sampleConf [("zzz", "danger")] [] false) "zzz" "Deployment" TargetPod
        (sampleMeta []) "" false
      = (none, some ("Check " ++ "zzz" ++ " not found")) ∧
    (∃ e, applyPodSchemaChecks (mkBuiltInChecks (fun id => okCheck id true))
        (sampleConf [("zzz", "danger")] [] false) (sampleWorkload []) = (none, some e)) ∧
    (∃ e, applyControllerSchemaChecks (mkBuiltInChecks (fun id => okCheck id true))
        (sampleConf [("zzz", "danger")] [] false) (sampleWorkload []) = (none, some e)) ∧
    (∃ e, applyContainerSchemaChecks (mkBuiltInChecks (fun id => okCheck id true))
        (sampleConf [("zzz", "danger")] [] false) (sampleWorkload []) sampleContainer false
      = (none, some e)) ∧
    (∃ e, applyOtherSchemaChecks (mkBuiltInChecks (fun id => okCheck id true))
        (sampleConf [("zzz", "danger")] [] false) (sampleUnstructured []) = (none, some e)) :=
  missing_check_aborts_pass (mkBuiltInChecks (fun id => okCheck id true))
    (sampleConf [("zzz", "danger")] [] false) (sampleWorkload []) sampleContainer false
    (sampleUnstructured []) "zzz" "Deployment" TargetPod (sampleMeta []) "" false
    (by decide) (by rfl) (by rfl) (by rfl)

/-- C6: whenever a scope entry point reports a pass-level error, the
ResultSet it returns alongside is Go's nil map: it never returns a
partially populated ResultSet with the records produced before the
error. -/
theorem pass_error_no_partial_resultset
    (bi : List (String × SchemaCheck)) (conf : Configuration) (w : GenericWorkload)
    (container : Container) (isInit : Bool) (u : Unstructured) :
    (∀ o e, applyPodSchemaChecks bi conf w = (o, some e) → o = none) ∧
    (∀ o e, applyControllerSchemaChecks bi conf w = (o, some e) → o = none) ∧
    (∀ o e, applyContainerSchemaChecks bi conf w container isInit = (o, some e) → o = none) ∧
    (∀ o e, applyOtherSchemaChecks bi conf u = (o, some e) → o = none) := by
  refine ⟨?_, ?_, ?_, ?_⟩
  · intro o e h
    unfold applyPodSchemaChecks at h
    exact runChecks_error_none _ _ _ _ _ _ o e h
  · intro o e h
    unfold applyControllerSchemaChecks at h
    exact runChecks_error_none _ _ _ _ _ _ o e h
  · intro o e h
    unfold applyContainerSchemaChecks at h
    exact runChecks_error_none _ _ _ _ _ _ o e h
  · intro o e h
    unfold applyOtherSchemaChecks at h
    exact runChecks_error_none _ _ _ _ _ _ o e h

/-- Witness for C6 at a concrete input: a check whose predicate fails to
evaluate aborts the pod-scope pass, and the ResultSet component of the
returned pair is nil. -/
theorem pass_error_no_partial_resultset_witness :
    (applyPodSchemaChecks [] (sampleConf [("e1", "danger")] [("e1", errCheck "e1")] false)
        (sampleWorkload [])).1 = none :=
  (pass_error_no_partial_resultset []
      (sampleConf [("e1", "danger")] [("e1", errCheck "e1")] false)
      (sampleWorkload []) sampleContainer false (sampleUnstructured [])).1
    _ "malformed" (by rfl)

/-- C7: every ResultSet produced by a successful pass carries its records
in lexicographic order of check ID, and the consumer-side iteration
(sorting the key set, then reading each record) reproduces exactly the
stored records in that order, independent of catalog declaration order. -/
theorem resultset_iteration_sorted
    (bi : List (String × SchemaCheck)) (conf : Configuration) (w : GenericWorkload)
    (container : Container) (isInit : Bool) (u : Unstructured)
    (hwfc : ChecksWF conf.CustomChecks) (hwfb : ChecksWF bi) :
    (∀ rs, applyPodSchemaChecks bi conf w = (some rs, none) →
      List.Pairwise strLeRel (rs.map Prod.fst) ∧ consumeResultSet rs = rs) ∧
    (∀ rs, applyControllerSchemaChecks bi conf w = (some rs, none) →
      List.Pairwise strLeRel (rs.map Prod.fst) ∧ consumeResultSet rs = rs) ∧
    (∀ rs, applyContainerSchemaChecks bi conf w container isInit = (some rs, none) →
      List.Pairwise strLeRel (rs.map Prod.fst) ∧ consumeResultSet rs = rs) ∧
    (∀ rs, applyOtherSchemaChecks bi conf u = (some rs, none) →
      List.Pairwise strLeRel (rs.map Prod.fst) ∧ consumeResultSet rs = rs) := by
  have main : ∀ (ex : String → Bool) (res : String → Option SchemaCheck × Option String)
      (ev : SchemaCheck → Except String Bool),
      (∀ id c s, res id = (some c, s) → c.ID = id) →
      ∀ rs, runChecks conf ex res ev (getSortedKeys conf.Checks) [] = (some rs, none) →
      List.Pairwise strLeRel (rs.map Prod.fst) ∧ consumeResultSet rs = rs := by
    intro ex res ev hres rs h
    have hsn := runChecks_sorted_keys conf ex res ev hres (getSortedKeys conf.Checks) [] rs
      (getSortedKeys_pairwise conf.Checks) (by simp) (by simp) (by simp) h
    exact ⟨hsn.1, consumeResultSet_eq_self hsn.1 hsn.2⟩
  refine ⟨?_, ?_, ?_, ?_⟩
  · intro rs h
    unfold applyPodSchemaChecks at h
    exact main _ _ _ (fun id c s hcs => resolveCheck_some_id hwfc hwfb hcs) rs h
  · intro rs h
    unfold applyControllerSchemaChecks at h
    exact main _ _ _ (fun id c s hcs => resolveCheck_some_id hwfc hwfb hcs) rs h
  · intro rs h
    unfold applyContainerSchemaChecks at h
    exact main _ _ _ (fun id c s hcs => resolveCheck_some_id hwfc hwfb hcs) rs h
  · intro rs h
    unfold applyOtherSchemaChecks at h
    exact main _ _ _ (fun id c s hcs => resolveCheck_some_id hwfc hwfb hcs) rs h

/-- Witness for C7 at a concrete input: the severity map lists "b" before
"a", yet the produced ResultSet is keyed "a" then "b" and consuming it
reproduces it unchanged. -/
theorem resultset_iteration_sorted_witness :
    List.Pairwise strLeRel
      (([("a", msgOf "a" "warning" true), ("b", msgOf "b" "danger" false)] : ResultSet).map
        Prod.fst) ∧
    consumeResultSet [("a", msgOf "a" "warning" true), ("b", msgOf "b" "danger" false)]
      = [("a", msgOf "a" "warning" true), ("b", msgOf "b" "danger" false)] :=
  (resultset_iteration_sorted []
      (sampleConf [("b", "danger"), ("a", "warning")]
        [("a", okCheck "a" true), ("b", okCheck "b" false)] false)
      (sampleWorkload []) sampleContainer false (sampleUnstructured [])
      (by intro p hp; fin_cases hp <;> rfl)
      (by intro p hp; simp at hp)).1
    _ (by rfl)

/-- C8: container-scope evaluation of a pod-shaped check runs the pod
predicate on a synthetic pod specification holding exactly the one target
container and an empty init-container list; consequently the whole
container-scope pass result is unchanged when only sibling containers of
the workload change. -/
theorem podShaped_container_isolation
    (bi : List (String × SchemaCheck)) (conf : Configuration) (w : GenericWorkload)
    (container : Container) (isInit : Bool) (cs2 is2 : List Container) :
    (∀ check : SchemaCheck, check.SchemaTarget = TargetPod →
      containerCheckEval w container check
        = check.CheckPod
            { InitContainers := [], Containers := [container], Rest := w.PodSpec.Rest }) ∧
    applyContainerSchemaChecks bi conf w container isInit
      = applyContainerSchemaChecks bi conf
          { w with PodSpec := { w.PodSpec with InitContainers := is2, Containers := cs2 } }
          container isInit := by
  constructor
  · intro check hc
    unfold containerCheckEval
    rw [if_pos hc]
  · unfold applyContainerSchemaChecks
    exact runChecks_congr _ (fun id => rfl) (fun id => rfl) (fun c => rfl) _ _

/-- Witness for C8 at a concrete input: a pod-shaped check passing
exactly when the pod has no init containers gives the same container-scope
result on a workload and on its variant with an extra init container. -/
theorem podShaped_container_isolation_witness :
    containerCheckEval (sampleWorkload []) sampleContainer (podShapedCheck "p1")
      = (podShapedCheck "p1").CheckPod
          { InitContainers := [], Containers := [sampleContainer],
            Rest := (sampleWorkload []).PodSpec.Rest } ∧
    applyContainerSchemaChecks []
        (sampleConf [("p1", "danger")] [("p1", podShapedCheck "p1")] false)
        (sampleWorkload []) sampleContainer false
      = applyContainerSchemaChecks []
          (sampleConf [("p1", "danger")] [("p1", podShapedCheck "p1")] false)
          { sampleWorkload [] with
            PodSpec := { (sampleWorkload []).PodSpec with
                         InitContainers := [sampleContainer], Containers := [] } }
          sampleContainer false :=
  ⟨(podShaped_container_isolation []
      (sampleConf [("p1", "danger")] [("p1", podShapedCheck "p1")] false)
      (sampleWorkload []) sampleContainer false [] [sampleContainer]).1
      (podShapedCheck "p1") (by rfl),
   (podShaped_container_isolation []
      (sampleConf [("p1", "danger")] [("p1", podShapedCheck "p1")] false)
      (sampleWorkload []) sampleContainer false [] [sampleContainer]).2⟩

/-- C9: a resolvable check that fails the global actionability test or
the structural actionability test is skipped, not an error: resolution
returns neither check nor error, and a successful pod-scope pass has no
entry for it. -/
theorem actionability_skip_no_error
    (bi : List (String × SchemaCheck)) (conf : Configuration) (w : GenericWorkload)
    (mid : String) (c : SchemaCheck)
    (hwfc : ChecksWF conf.CustomChecks) (hwfb : ChecksWF bi)
    (hlook : catalogLookup bi conf mid = some c)
    (hfail : conf.IsActionable c.ID w.ObjectMeta.nsp w.ObjectMeta.name "" = false ∨
      c.IsActionable TargetPod w.Kind false = false) :
    resolveCheck bi conf mid w.Kind TargetPod w.ObjectMeta "" false = (none, none) ∧
    (∀ rs, applyPodSchemaChecks bi conf w = (some rs, none) → lookupS rs mid = none) := by
  have hresolve :
      resolveCheck bi conf mid w.Kind TargetPod w.ObjectMeta "" false = (none, none) := by
    unfold resolveCheck
    simp only [hlook]
    rcases hfail with hf | hf
    · simp [hf]
    · cases hIA : conf.IsActionable c.ID w.ObjectMeta.nsp w.ObjectMeta.name "" with
      | false => simp [hIA]
      | true => simp [hIA, hf]
  refine ⟨hresolve, ?_⟩
  intro rs h
  unfold applyPodSchemaChecks at h
  refine runChecks_no_entry _ _ _ _ mid ?_ ?_ (getSortedKeys conf.Checks) [] rs rfl h
  · intro id cc s hcs
    exact resolveCheck_some_id hwfc hwfb hcs
  · right
    show (resolveCheck bi conf mid w.Kind TargetPod w.ObjectMeta "" false).1 = none
    rw [hresolve]

/-- Witness for C9 at a concrete input: a configuration whose global
actionability test rejects everything skips the resolvable check "x"
silently and the pass returns an empty ResultSet without it. -/
theorem actionability_skip_no_error_witness :
    resolveCheck [] (rejectingConf [("x", "danger")] [("x", okCheck "x" true)])
        "x" (sampleWorkload []).Kind TargetPod (sampleWorkload []).ObjectMeta "" false
      = (none, none) ∧
    lookupS ([] : ResultSet) "x" = none :=
  ⟨(actionability_skip_no_error [] (rejectingConf [("x", "danger")] [("x", okCheck "x" true)])
      (sampleWorkload []) "x" (okCheck "x" true)
      (by intro p hp; fin_cases hp <;> rfl)
      (by intro p hp; simp at hp)
      (by rfl) (Or.inl (by rfl))).1,
   (actionability_skip_no_error [] (rejectingConf [("x", "danger")] [("x", okCheck "x" true)])
      (sampleWorkload []) "x" (okCheck "x" true)
      (by intro p hp; fin_cases hp <;> rfl)
      (by intro p hp; simp at hp)
      (by rfl) (Or.inl (by rfl))).2 [] (by rfl)⟩

/-- C10: only check IDs configured in the severity mapping are ever
evaluated: every key of a successful pass's ResultSet is a key of the
configuration's check-ID-to-severity mapping, for every scope entry
point. -/
theorem resultset_keys_from_config
    (bi : List (String × SchemaCheck)) (conf : Configuration) (w : GenericWorkload)
    (container : Container) (isInit : Bool) (u : Unstructured)
    (hwfc : ChecksWF conf.CustomChecks) (hwfb : ChecksWF bi) :
    (∀ rs, applyPodSchemaChecks bi conf w = (some rs, none) →
      ∀ k ∈ rs.map Prod.fst, k ∈ conf.Checks.map Prod.fst) ∧
    (∀ rs, applyControllerSchemaChecks bi conf w = (some rs, none) →
      ∀ k ∈ rs.map Prod.fst, k ∈ conf.Checks.map Prod.fst) ∧
    (∀ rs, applyContainerSchemaChecks bi conf w container isInit = (some rs, none) →
      ∀ k ∈ rs.map Prod.fst, k ∈ conf.Checks.map Prod.fst) ∧
    (∀ rs, applyOtherSchemaChecks bi conf u = (some rs, none) →
      ∀ k ∈ rs.map Prod.fst, k ∈ conf.Checks.map Prod.fst) := by
  have main : ∀ (ex : String → Bool) (res : String → Option SchemaCheck × Option String)
      (ev : SchemaCheck → Except String Bool),
      (∀ id c s, res id = (some c, s) → c.ID = id) →
      ∀ rs, runChecks conf ex res ev (getSortedKeys conf.Checks) [] = (some rs, none) →
      ∀ k ∈ rs.map Prod.fst, k ∈ conf.Checks.map Prod.fst := by
    intro ex res ev hres rs h k hk
    rcases runChecks_success_keys conf ex res ev hres _ [] rs h k hk with h' | h'
    · simp at h'
    · exact mem_getSortedKeys.mp h'
  refine ⟨?_, ?_, ?_, ?_⟩
  · intro rs h
    unfold applyPodSchemaChecks at h
    exact main _ _ _ (fun id c s hcs => resolveCheck_some_id hwfc hwfb hcs) rs h
  · intro rs h
    unfold applyControllerSchemaChecks at h
    exact main _ _ _ (fun id c s hcs => resolveCheck_some_id hwfc hwfb hcs) rs h
  · intro rs h
    unfold applyContainerSchemaChecks at h
    exact main _ _ _ (fun id c s hcs => resolveCheck_some_id hwfc hwfb hcs) rs h
  · intro rs h
    unfold applyOtherSchemaChecks at h
    exact main _ _ _ (fun id c s hcs => resolveCheck_some_id hwfc hwfb hcs) rs h

/-- Witness for C10 at a concrete input: a custom check "zz" exists in
the catalog but is absent from the severity mapping, and the produced
ResultSet contains only the configured key "a". -/
theorem resultset_keys_from_config_witness :
    ("a" : String) ∈ ([("a", "danger")] : List (String × Severity)).map Prod.fst :=
  (resultset_keys_from_config []
      (sampleConf [("a", "danger")] [("a", okCheck "a" true), ("zz", okCheck "zz" true)] false)
      (sampleWorkload []) sampleContainer false (sampleUnstructured [])
      (by intro p hp; fin_cases hp <;> rfl)
      (by intro p hp; simp at hp)).1
    [("a", msgOf "a" "danger" true)] (by rfl) "a" (by decide)

end Polaris
